import Mathlib

/-!
Verification of the embedding-index lifecycle and nearest-neighbor retrieval
engine of the Visual Product Matcher backend (`backend/clip_model.py`),
shallowly embedded in Lean.

Modelling conventions:
* vector components and similarity scores are exact rationals (`ℚ`), standing
  for the floating-point values of the original program;
* the external collaborators are parameters: `prep` models
  `preprocess(load_image(...))` (returning `none` on the per-item exception
  path) and `encode` models `model.encode_image` followed by L2
  normalisation on a single preprocessed image — encoding a stacked batch is
  elementwise application;
* file-system effects are made explicit: `save_embeddings` is rendered as the
  list of file operations it performs, and `load_embeddings` as a function of
  the state of the embeddings file.
-/

namespace VPM

/-- `MODEL_NAME = 'ViT-B/32'` (clip_model.py, line 30). -/
def MODEL_NAME : String := "ViT-B/32"

/-- The path of the persisted index, `EMBEDDINGS_JSON` (line 29). -/
def EMBEDDINGS_JSON : String := "data/embeddings.json"

/-- One product entry of `data/products.json` (fields used by the engine). -/
structure CatalogItem where
  id : String
  name : String
  category : String
  image_url : String
deriving DecidableEq, Repr

/-- One element of the persisted `items` list: `{'id': ..., 'embedding': ...}`. -/
structure VectorRecord where
  id : String
  embedding : List ℚ
deriving DecidableEq, Repr

/-- A well-formed persisted index, as written by `save_embeddings`
(lines 74-82): `{'model', 'created_at', 'count', 'items'}`. -/
structure Index where
  model : String
  created_at : Int
  count : Nat
  items : List VectorRecord
deriving DecidableEq, Repr

/-! ### EmbeddingStore: `save_embeddings` / `load_embeddings` -/

/-- A file-system operation, used to model how `save_embeddings` writes. -/
inductive FsOp where
  | write (path : String) (payload : Index)
  | rename (src dst : String)
deriving DecidableEq, Repr

/-- The payload built by `save_embeddings` (lines 75-80): model name, the
current timestamp `now` (for `int(time.time())`), `count = len(items)` and
the items themselves. -/
def save_payload (now : Int) (items : List VectorRecord) : Index :=
  { model := MODEL_NAME, created_at := now, count := items.length, items := items }

/-- `save_embeddings` (lines 74-82) as its file-operation trace: a single
direct `open(EMBEDDINGS_JSON, 'w')` + `json.dump`, i.e. one in-place write of
the payload to the final path — no temporary file and no rename. -/
def save_embeddings (now : Int) (items : List VectorRecord) : List FsOp :=
  [FsOp.write EMBEDDINGS_JSON (save_payload now items)]

/-- Modelled from the spec (§4.1): an atomic save "writes ... atomically
(write-then-rename or equivalent) so a reader can never observe a partially
written index file" — no operation writes the target path directly, and the
content reaches the target only through a rename. -/
def SpecAtomicWrite (target : String) (ops : List FsOp) : Prop :=
  (∀ p payload, FsOp.write p payload ∈ ops → p ≠ target) ∧
    ∃ tmp, FsOp.rename tmp target ∈ ops

/-- JSON values, modelling what `json.load` can return. -/
inductive Json where
  | null
  | bool (b : Bool)
  | num (q : ℚ)
  | str (s : String)
  | arr (elems : List Json)
  | obj (fields : List (String × Json))

/-- State of the embeddings file: `none` = the file does not exist;
`some none` = the file exists but is not valid JSON; `some (some j)` = the
file exists and parses to the JSON value `j`. -/
def FileState := Option (Option Json)

/-- `load_embeddings` (lines 85-89): returns the empty dict when the file is
absent; re-raises the `json.load` exception when the contents are not valid
JSON; otherwise returns the parsed value as-is — the shape of the value is
not validated. -/
def load_embeddings (fs : FileState) : Except String Json :=
  match fs with
  | none => .ok (Json.obj [])
  | some none => .error "json.decoder.JSONDecodeError"
  | some (some j) => .ok j

/-- Key lookup in a JSON object (first binding wins, as in parsed JSON). -/
def Json.lookup (fields : List (String × Json)) (k : String) : Option Json :=
  (fields.find? (fun f => f.1 == k)).map (fun f => f.2)

/-- A JSON string, as a Lean string. -/
def decodeStr : Json → Option String
  | .str s => some s
  | _ => none

/-- A JSON number, as a rational. -/
def decodeNum : Json → Option ℚ
  | .num q => some q
  | _ => none

/-- A JSON integer. -/
def decodeInt (j : Json) : Option Int :=
  (decodeNum j).bind (fun q => if q.den = 1 then some q.num else none)

/-- A JSON non-negative integer. -/
def decodeNat (j : Json) : Option Nat :=
  (decodeInt j).bind (fun n => if 0 ≤ n then some n.toNat else none)

/-- A JSON embedding: an array of numbers. -/
def decodeEmbedding : Json → Option (List ℚ)
  | .arr es => es.mapM decodeNum
  | _ => none

/-- A JSON vector record: an object with a string `id` and a numeric-array
`embedding`. -/
def decodeRecord : Json → Option VectorRecord
  | .obj fs => do
      let i ← Json.lookup fs "id" >>= decodeStr
      let e ← Json.lookup fs "embedding" >>= decodeEmbedding
      pure ⟨i, e⟩
  | _ => none

/-- A JSON list of vector records. -/
def decodeItems : Json → Option (List VectorRecord)
  | .arr es => es.mapM decodeRecord
  | _ => none

/-- Modelled from the spec (§3, §6): parsing a JSON value "into the Index
shape" — an object with fields `model` (string), `created_at` (integer epoch
seconds), `count` (integer) and `items` (ordered list of records). -/
def decodeIndex : Json → Option Index
  | .obj fs => do
      let m ← Json.lookup fs "model" >>= decodeStr
      let c ← Json.lookup fs "created_at" >>= decodeInt
      let n ← Json.lookup fs "count" >>= decodeNat
      let its ← Json.lookup fs "items" >>= decodeItems
      pure ⟨m, c, n, its⟩
  | _ => none

/-! ### IndexBuilder: `build_index` -/

/-- State of the builder loop of `build_index` (lines 94-111): the committed
`items` plus the pending batch (`batch_imgs`, `batch_ids`). -/
structure BuildState (Img : Type) where
  items : List VectorRecord
  batch_imgs : List Img
  batch_ids : List String

/-- The batch size `B = 16` (line 98). -/
def B : Nat := 16

/-- `flush_batch` (lines 100-111): if the batch is nonempty, encode the
pending images, pair the batch ids with the feature vectors, append the
resulting records to `items`, and clear the batch. -/
def flush_batch {Img : Type} (encode : Img → List ℚ) (s : BuildState Img) :
    BuildState Img :=
  if s.batch_imgs.isEmpty then s
  else
    { items := s.items ++
        (s.batch_ids.zip (s.batch_imgs.map encode)).map (fun x => ⟨x.1, x.2⟩),
      batch_imgs := [], batch_ids := [] }

/-- One iteration of the `for p in products` loop (lines 113-122): `prep p`
models `preprocess(load_image(p['image_url']))`, with `none` for the
per-item exception path (logged and skipped); on success the image and the
id are appended to the batch, which is flushed once it reaches size `B`. -/
def build_step {Img : Type} (prep : CatalogItem → Option Img)
    (encode : Img → List ℚ) (s : BuildState Img) (p : CatalogItem) :
    BuildState Img :=
  match prep p with
  | none => s
  | some t =>
    let s' : BuildState Img :=
      { s with batch_imgs := s.batch_imgs ++ [t],
               batch_ids := s.batch_ids ++ [p.id] }
    if B ≤ s'.batch_imgs.length then flush_batch encode s' else s'

/-- `build_index` (lines 92-127), as the list of vector records it produces.
(The function also persists the records via `save_embeddings` and returns the
dict `{'model': MODEL_NAME, 'items': items}`.) -/
def build_index {Img : Type} (prep : CatalogItem → Option Img)
    (encode : Img → List ℚ) (products : List CatalogItem) : List VectorRecord :=
  (flush_batch encode (products.foldl (build_step prep encode) ⟨[], [], []⟩)).items

/-! ### StalenessPolicy: the condition of `ensure_index` -/

/-- The staleness condition tested by `ensure_index` (line 133):
`rebuild or not idx or idx.get('model') != MODEL_NAME or
idx.get('count', 0) < len(products)`.  `idx = none` models the empty dict
returned for an absent file; the constant `MODEL_NAME` is generalised to the
parameter `current_model`. -/
def needs_rebuild (idx : Option Index) (products : List CatalogItem)
    (current_model : String) (force : Bool) : Bool :=
  force || idx.isNone ||
    (match idx with
     | none => true
     | some i => (i.model != current_model) || decide (i.count < products.length))

/-- The dict returned by `ensure_index`: either the loaded persisted index,
or the freshly built `{'model': MODEL_NAME, 'items': items}`. -/
inductive IdxDict where
  | loaded (i : Index)
  | built (model : String) (items : List VectorRecord)

/-- The `model` entry of the returned dict. -/
def IdxDict.model : IdxDict → String
  | .loaded i => i.model
  | .built m _ => m

/-- The `items` entry of the returned dict. -/
def IdxDict.items : IdxDict → List VectorRecord
  | .loaded i => i.items
  | .built _ its => its

/-- `ensure_index` (lines 130-135).  `persisted` is the well-formed index
held in the embeddings file (`none` when absent).  The `none` case of the
else branch is unreachable, since `needs_rebuild` is true for an absent
index; it is mapped to the rebuild result. -/
def ensure_index {Img : Type} (prep : CatalogItem → Option Img)
    (encode : Img → List ℚ) (persisted : Option Index)
    (products : List CatalogItem) (rebuild : Bool) : IdxDict :=
  if needs_rebuild persisted products MODEL_NAME rebuild then
    .built MODEL_NAME (build_index prep encode products)
  else
    match persisted with
    | some i => .loaded i
    | none => .built MODEL_NAME (build_index prep encode products)

/-! ### SimilaritySearch: `search` -/

/-- `cosine_similarity` (lines 138-139) on one pair of already
unit-normalised vectors: the plain dot product. -/
def dot (a b : List ℚ) : ℚ := ((a.zip b).map (fun x => x.1 * x.2)).sum

/-- One entry of the result list built by `search` (lines 171-174). -/
structure SearchResult where
  id : String
  name : String
  category : String
  image_url : String
  score : ℚ
deriving DecidableEq, Repr

/-- The value returned by `search` (line 176): `{'count': ..., 'results': ...}`. -/
structure SearchOut where
  count : Nat
  results : List SearchResult
deriving DecidableEq, Repr

/-- Membership in `pmap = {p['id']: p for p in products}` (line 145), used by
the `it['id'] in pmap` filters of lines 148-149. -/
def pmap_mem (products : List CatalogItem) (pid : String) : Bool :=
  products.any (fun p => p.id == pid)

/-- Lookup `pmap[pid]` (line 170): in a dict comprehension a later duplicate
id overwrites an earlier one, so the last matching product wins. -/
def pmap_get (products : List CatalogItem) (pid : String) : Option CatalogItem :=
  products.reverse.find? (fun p => p.id == pid)

/-- The ranking order modelling `torch.topk(sims, k)` with sorted output
(line 163): a pair `(position, score)` ranks before another when its score is
strictly higher, or on exactly equal scores when its position is lower
(first seen wins). -/
def simLE (a b : Nat × ℚ) : Prop := b.2 < a.2 ∨ (a.2 = b.2 ∧ a.1 ≤ b.1)

instance : DecidableRel simLE := fun a b => by
  unfold simLE; exact inferInstance

instance : IsTotal (Nat × ℚ) simLE := ⟨by
  intro a b
  rcases lt_trichotomy a.2 b.2 with h | h | h
  · exact Or.inr (Or.inl h)
  · rcases Nat.le_total a.1 b.1 with h1 | h1
    · exact Or.inl (Or.inr ⟨h, h1⟩)
    · exact Or.inr (Or.inr ⟨h.symm, h1⟩)
  · exact Or.inl (Or.inl h)⟩

instance : IsTrans (Nat × ℚ) simLE := ⟨by
  intro a b c hab hbc
  rcases hab with h1 | ⟨e1, l1⟩ <;> rcases hbc with h2 | ⟨e2, l2⟩
  · exact Or.inl (h2.trans h1)
  · exact Or.inl (by rw [← e2]; exact h1)
  · exact Or.inl (by rw [e1]; exact h2)
  · exact Or.inr ⟨e1.trans e2, l1.trans l2⟩⟩

/-- `vals, idxs = torch.topk(sims, k=min(top_k, len(sims)))` (line 163), as
the list of `(position, score)` pairs in rank order. -/
def topk_pairs (sims : List ℚ) (top_k : Nat) : List (Nat × ℚ) :=
  (List.insertionSort simLE sims.enum).take (min top_k sims.length)

/-- The shared filter of lines 148-149: the records of `index['items']`
whose `id` is a key of `pmap`.  The source evaluates this filter twice, once
for `emb_list` and once for `ids`; both are maps over this common list. -/
def filtered_items (products : List CatalogItem) (items : List VectorRecord) :
    List VectorRecord :=
  items.filter (fun it => pmap_mem products it.id)

/-- One iteration of the result loop (lines 165-174): entries scoring below
`min_score` are skipped with `continue`; the rest are joined with the catalog
metadata `pmap[ids[i]]`. -/
def result_entry (products : List CatalogItem) (ids : List String)
    (min_score : ℚ) (v : Nat × ℚ) : Option SearchResult :=
  if v.2 < min_score then none
  else
    (ids[v.1]?).bind (fun pid =>
      (pmap_get products pid).map (fun p =>
        { id := p.id, name := p.name, category := p.category,
          image_url := p.image_url, score := v.2 }))

/-- The body of `search` (lines 142-176) behind the external collaborators:
`qf` is the unit-normalised query feature vector, `items` the records of the
ensured index, `products` the live catalog. -/
def search_core (products : List CatalogItem) (items : List VectorRecord)
    (qf : List ℚ) (top_k : Nat) (min_score : ℚ) : Except String SearchOut :=
  let filtered := filtered_items products items
  let emb_list := filtered.map (fun it => it.embedding)
  let ids := filtered.map (fun it => it.id)
  if emb_list.isEmpty then .error "Empty Embeddings Index"
  else
    let sims := emb_list.map (fun e => dot qf e)
    let results := (topk_pairs sims top_k).filterMap
      (result_entry products ids min_score)
    .ok { count := results.length, results := results }

/-- The similarity list `sims` of line 162: the dot product of `qf` against
every retained embedding. -/
def sims_of (products : List CatalogItem) (items : List VectorRecord)
    (qf : List ℚ) : List ℚ :=
  ((filtered_items products items).map (fun it => it.embedding)).map
    (fun e => dot qf e)

/-- The strict version of the ranking order: strictly higher score, or equal
score and strictly earlier original position.  Consecutive results of a query
are related by it. -/
def simLT (a b : Nat × ℚ) : Prop := b.2 < a.2 ∨ (a.2 = b.2 ∧ a.1 < b.1)

/-- The result list of a query, with the error case as the empty list. -/
def search_results (products : List CatalogItem) (items : List VectorRecord)
    (qf : List ℚ) (top_k : Nat) (min_score : ℚ) : List SearchResult :=
  match search_core products items qf top_k min_score with
  | .ok o => o.results
  | .error _ => []

/-! ### Lemmas about the builder -/

/-- Semantic content of a builder state: the committed items followed by the
records the pending batch will contribute once flushed. -/
def BuildState.flatten {Img : Type} (encode : Img → List ℚ) (s : BuildState Img) :
    List VectorRecord :=
  s.items ++ (s.batch_ids.zip (s.batch_imgs.map encode)).map (fun x => ⟨x.1, x.2⟩)

/-- The record a single catalog item contributes: nothing on the per-item
failure path, one id/embedding pair on success. -/
def item_record {Img : Type} (prep : CatalogItem → Option Img)
    (encode : Img → List ℚ) (p : CatalogItem) : Option VectorRecord :=
  (prep p).map (fun t => ⟨p.id, encode t⟩)

lemma flush_batch_items {Img : Type} (encode : Img → List ℚ) (s : BuildState Img) :
    (flush_batch encode s).items = s.flatten encode := by
  unfold flush_batch BuildState.flatten
  split
  · rename_i h
    rw [List.isEmpty_iff.mp h]
    simp
  · rfl

lemma flush_batch_flatten {Img : Type} (encode : Img → List ℚ) (s : BuildState Img) :
    (flush_batch encode s).flatten encode = s.flatten encode := by
  unfold flush_batch
  split
  · rfl
  · unfold BuildState.flatten
    simp

lemma flush_batch_len {Img : Type} (encode : Img → List ℚ) (s : BuildState Img)
    (h : s.batch_ids.length = s.batch_imgs.length) :
    (flush_batch encode s).batch_ids.length = (flush_batch encode s).batch_imgs.length := by
  unfold flush_batch
  split
  · exact h
  · rfl

lemma build_step_flatten {Img : Type} (prep : CatalogItem → Option Img)
    (encode : Img → List ℚ) (s : BuildState Img) (p : CatalogItem)
    (h : s.batch_ids.length = s.batch_imgs.length) :
    (build_step prep encode s p).flatten encode =
      s.flatten encode ++ (item_record prep encode p).toList := by
  unfold build_step item_record
  cases hp : prep p with
  | none => simp
  | some t =>
    have hz : (s.batch_ids ++ [p.id]).zip ((s.batch_imgs ++ [t]).map encode) =
        s.batch_ids.zip (s.batch_imgs.map encode) ++ [(p.id, encode t)] := by
      rw [List.map_append, List.zip_append (by simpa using h)]
      rfl
    have hflat : BuildState.flatten encode
        ⟨s.items, s.batch_imgs ++ [t], s.batch_ids ++ [p.id]⟩ =
        s.flatten encode ++ [⟨p.id, encode t⟩] := by
      unfold BuildState.flatten
      simp only
      rw [hz]
      simp [BuildState.flatten]
    simp only
    split
    · rw [flush_batch_flatten, hflat]
      simp
    · rw [hflat]
      simp

lemma build_step_len {Img : Type} (prep : CatalogItem → Option Img)
    (encode : Img → List ℚ) (s : BuildState Img) (p : CatalogItem)
    (h : s.batch_ids.length = s.batch_imgs.length) :
    (build_step prep encode s p).batch_ids.length =
      (build_step prep encode s p).batch_imgs.length := by
  unfold build_step
  cases hp : prep p with
  | none => exact h
  | some t =>
    simp only
    split
    · exact flush_batch_len _ _ (by simp [h])
    · simp [h]

lemma build_foldl {Img : Type} (prep : CatalogItem → Option Img)
    (encode : Img → List ℚ) (products : List CatalogItem) :
    ∀ s : BuildState Img, s.batch_ids.length = s.batch_imgs.length →
      (products.foldl (build_step prep encode) s).flatten encode =
        s.flatten encode ++ products.filterMap (item_record prep encode) ∧
      (products.foldl (build_step prep encode) s).batch_ids.length =
        (products.foldl (build_step prep encode) s).batch_imgs.length := by
  induction products with
  | nil => intro s h; simpa using h
  | cons p ps ih =>
    intro s h
    have hstep := build_step_flatten prep encode s p h
    have hlen := build_step_len prep encode s p h
    obtain ⟨h1, h2⟩ := ih (build_step prep encode s p) hlen
    constructor
    · rw [List.foldl_cons, h1, hstep, List.filterMap_cons]
      cases hp : prep p <;> simp [item_record, hp]
    · simpa using h2

/-- `build_index` produces exactly the per-item successes, in catalog order:
the batching is invisible. -/
lemma build_index_eq {Img : Type} (prep : CatalogItem → Option Img)
    (encode : Img → List ℚ) (products : List CatalogItem) :
    build_index prep encode products =
      products.filterMap (item_record prep encode) := by
  unfold build_index
  rw [flush_batch_items]
  rw [(build_foldl prep encode products ⟨[], [], []⟩ rfl).1]
  rfl

/-! ### Claims about the store, the staleness policy and the builder -/

/-- Claim C2: `needs_rebuild` is true exactly when `force` is set, the
persisted index is absent, its model identifier differs from the current one,
or its count is strictly below the catalog length; in particular it is true
for an absent index without force, and false for a matching, complete index
without force. -/
theorem C2_needs_rebuild_iff (idx : Option Index) (products : List CatalogItem)
    (m : String) (force : Bool) :
    (needs_rebuild idx products m force = true ↔
      (force = true ∨ idx = none ∨
        ∃ i, idx = some i ∧ (i.model ≠ m ∨ i.count < products.length))) ∧
    needs_rebuild none products m false = true ∧
    (∀ i, idx = some i → i.count = products.length → i.model = m →
      needs_rebuild idx products m false = false) := by
  refine ⟨?_, rfl, ?_⟩
  · cases idx with
    | none => simp [needs_rebuild]
    | some i => simp [needs_rebuild, bne_iff_ne]
  · intro i hi hc hm
    subst hi
    simp [needs_rebuild, hm, hc]

/-- Claim C2, witness: a persisted index whose count equals the catalog
length and whose model matches is not stale. -/
theorem C2_witness :
    needs_rebuild (some ⟨MODEL_NAME, 7, 1, []⟩) [⟨"p1", "n", "c", "u"⟩]
      MODEL_NAME false = false :=
  (C2_needs_rebuild_iff (some ⟨MODEL_NAME, 7, 1, []⟩) [⟨"p1", "n", "c", "u"⟩]
    MODEL_NAME false).2.2 ⟨MODEL_NAME, 7, 1, []⟩ rfl rfl rfl

/-- Claim C4: the items produced by `build_index` are exactly the per-item
successes in catalog order (batching of size 16 is invisible, no re-sorting);
failed items are skipped without aborting; the persisted count equals the
reduced number of successes; and when every item fails the result is a valid
empty index. -/
theorem C4_build_order_and_skip {Img : Type} (prep : CatalogItem → Option Img)
    (encode : Img → List ℚ) (products : List CatalogItem) (now : Int) :
    build_index prep encode products =
        products.filterMap (item_record prep encode) ∧
    (save_payload now (build_index prep encode products)).count =
        (build_index prep encode products).length ∧
    ((∀ p ∈ products, prep p = none) → build_index prep encode products = []) := by
  refine ⟨build_index_eq prep encode products, rfl, ?_⟩
  intro hall
  rw [build_index_eq]
  rw [List.filterMap_eq_nil_iff]
  intro p hp
  simp [item_record, hall p hp]

/-- Claim C4, witness: a two-item catalog whose second item fails yields just
the first record, and an all-failing catalog yields the empty index. -/
theorem C4_witness :
    build_index (fun _ : CatalogItem => (none : Option Unit)) (fun _ => [1])
      [⟨"p1", "n", "c", "u"⟩, ⟨"p2", "n", "c", "u"⟩] = [] :=
  (C4_build_order_and_skip (fun _ : CatalogItem => (none : Option Unit))
    (fun _ => [1]) [⟨"p1", "n", "c", "u"⟩, ⟨"p2", "n", "c", "u"⟩] 0).2.2
    (fun _ _ => rfl)

/-- Claim C8: with pointwise-equal (deterministic) collaborators, building
twice over an unchanged catalog yields bit-identical `items`, while the
`created_at` timestamps follow the respective build times and may differ. -/
theorem C8_idempotent_rebuild {Img : Type} (prep1 prep2 : CatalogItem → Option Img)
    (enc1 enc2 : Img → List ℚ) (products : List CatalogItem) (t1 t2 : Int)
    (hprep : ∀ p, prep1 p = prep2 p) (henc : ∀ t, enc1 t = enc2 t) :
    (save_payload t1 (build_index prep1 enc1 products)).items =
      (save_payload t2 (build_index prep2 enc2 products)).items ∧
    (save_payload t1 (build_index prep1 enc1 products)).created_at = t1 ∧
    (save_payload t2 (build_index prep2 enc2 products)).created_at = t2 := by
  have h1 : prep1 = prep2 := funext hprep
  have h2 : enc1 = enc2 := funext henc
  subst h1
  subst h2
  exact ⟨rfl, rfl, rfl⟩

/-- Claim C8, witness: two builds at different timestamps agree on items. -/
theorem C8_witness :
    (save_payload 1 (build_index (fun _ : CatalogItem => some ()) (fun _ => [1])
        [⟨"p1", "n", "c", "u"⟩])).items =
      (save_payload 2 (build_index (fun _ : CatalogItem => some ()) (fun _ => [1])
        [⟨"p1", "n", "c", "u"⟩])).items :=
  (C8_idempotent_rebuild (fun _ => some ()) (fun _ => some ()) (fun _ => [1])
    (fun _ => [1]) [⟨"p1", "n", "c", "u"⟩] 1 2 (fun _ => rfl) (fun _ => rfl)).1

/-- Claim C9: the dict returned by `ensure_index` always carries the current
model name: a loaded index is only reused when its model matches, and a
rebuild stamps the current model name. -/
theorem C9_ensure_index_model {Img : Type} (prep : CatalogItem → Option Img)
    (encode : Img → List ℚ) (persisted : Option Index)
    (products : List CatalogItem) (rebuild : Bool) :
    (ensure_index prep encode persisted products rebuild).model = MODEL_NAME := by
  unfold ensure_index
  split
  · rfl
  · rename_i h
    cases persisted with
    | none => rfl
    | some i =>
      simp only [IdxDict.model]
      simp [needs_rebuild] at h
      exact h.2.1

/-- Claim C6 (amended): `save_embeddings` performs a single direct write of
the payload `{model: MODEL_NAME, created_at: now, count: len(items), items}`
to the index path, overwriting any prior persisted index; the write is
in-place, not write-then-rename. -/
theorem C6_save_payload_fields (now : Int) (items : List VectorRecord) :
    save_embeddings now items =
      [FsOp.write EMBEDDINGS_JSON (save_payload now items)] ∧
    (save_payload now items).model = MODEL_NAME ∧
    (save_payload now items).created_at = now ∧
    (save_payload now items).count = items.length ∧
    (save_payload now items).items = items :=
  ⟨rfl, rfl, rfl, rfl, rfl⟩

/-- Claim C6, counterexample: the trace of `save_embeddings` writes the final
path directly and contains no rename, so the save is not atomic in the
write-then-rename sense claimed by the spec. -/
theorem C6_counterexample :
    ¬ SpecAtomicWrite EMBEDDINGS_JSON (save_embeddings 0 []) := by
  intro h
  exact h.1 EMBEDDINGS_JSON (save_payload 0 []) (by simp [save_embeddings]) rfl

/-- Claim C7 (amended): `load_embeddings` returns the absent value (the empty
dict, not an error) when no file exists; raises the JSON parse error when the
file exists but is not valid JSON; and returns any parseable JSON value as-is
without validating it against the Index shape. -/
theorem C7_load_behavior :
    load_embeddings none = .ok (Json.obj []) ∧
    load_embeddings (some none) = .error "json.decoder.JSONDecodeError" ∧
    (∀ j : Json, load_embeddings (some (some j)) = .ok j) :=
  ⟨rfl, rfl, fun _ => rfl⟩

/-- Claim C7, counterexample: a persisted file holding the JSON value `[]`
exists and cannot be parsed into the Index shape, yet `load_embeddings`
returns it successfully instead of failing with a CorruptIndex error. -/
theorem C7_counterexample :
    load_embeddings (some (some (Json.arr []))) = .ok (Json.arr []) ∧
    decodeIndex (Json.arr []) = none :=
  ⟨rfl, rfl⟩

/-! ### Lemmas about the search -/

lemma topk_pairs_sorted (sims : List ℚ) (k : Nat) :
    (topk_pairs sims k).Pairwise simLT := by
  have hs : (List.insertionSort simLE sims.enum).Pairwise simLE :=
    List.sorted_insertionSort simLE sims.enum
  have hsub : List.Sublist (topk_pairs sims k) (List.insertionSort simLE sims.enum) :=
    List.take_sublist _ _
  have hLE : (topk_pairs sims k).Pairwise simLE := List.Pairwise.sublist hsub hs
  have hperm : List.Perm (List.insertionSort simLE sims.enum) sims.enum :=
    List.perm_insertionSort _ _
  have hnodup : ((List.insertionSort simLE sims.enum).map Prod.fst).Nodup := by
    have h0 : (sims.enum.map Prod.fst).Nodup := by
      rw [List.enum_map_fst]
      exact List.nodup_range _
    exact ((hperm.map Prod.fst).nodup_iff).mpr h0
  have hne : (topk_pairs sims k).Pairwise (fun a b => a.1 ≠ b.1) :=
    List.pairwise_map.mp (List.Pairwise.sublist (hsub.map Prod.fst) hnodup)
  exact (hLE.and hne).imp (fun hab =>
    match hab with
    | ⟨Or.inl h, _⟩ => Or.inl h
    | ⟨Or.inr ⟨he, hle⟩, hne1⟩ => Or.inr ⟨he, Nat.lt_of_le_of_ne hle hne1⟩)

lemma topk_pairs_mem {sims : List ℚ} {k : Nat} {v : Nat × ℚ}
    (hv : v ∈ topk_pairs sims k) : sims[v.1]? = some v.2 := by
  have h1 : v ∈ List.insertionSort simLE sims.enum :=
    (List.take_sublist _ _).subset hv
  have h2 : v ∈ sims.enum := (List.perm_insertionSort simLE sims.enum).subset h1
  exact List.mem_enum_iff_getElem?.mp h2

lemma topk_pairs_length (sims : List ℚ) (k : Nat) :
    (topk_pairs sims k).length = min k sims.length := by
  unfold topk_pairs
  rw [List.length_take, List.length_insertionSort, List.enum_length]
  omega

lemma filterMap_map_eq {α β γ : Type} (l : List α) (g : α → Option β)
    (f : α → γ) (e : β → γ)
    (hl : ∀ v ∈ l, ∃ r, g v = some r ∧ e r = f v) :
    (l.filterMap g).map e = l.map f ∧ (l.filterMap g).length = l.length := by
  induction l with
  | nil => simp
  | cons a t ih =>
    obtain ⟨r, hr, he⟩ := hl a (by simp)
    obtain ⟨ih1, ih2⟩ := ih (fun v hv => hl v (by simp [hv]))
    rw [List.filterMap_cons, hr]
    exact ⟨by simp [ih1, he], by simp [ih2]⟩

lemma filterMap_length_mono {α β : Type} (l : List α) (f g : α → Option β)
    (h : ∀ a b, f a = some b → g a = some b) :
    (l.filterMap f).length ≤ (l.filterMap g).length := by
  induction l with
  | nil => simp
  | cons a t ih =>
    rw [List.filterMap_cons, List.filterMap_cons]
    cases hf : f a with
    | none =>
      cases hg : g a with
      | none => exact ih
      | some b => simpa using Nat.le_succ_of_le ih
    | some b =>
      rw [h a b hf]
      simpa using ih

lemma pmap_get_of_mem {products : List CatalogItem} {pid : String}
    (h : pmap_mem products pid = true) :
    ∃ p, pmap_get products pid = some p ∧ p ∈ products ∧ p.id = pid := by
  unfold pmap_mem at h
  unfold pmap_get
  obtain ⟨p, hp, hid⟩ := List.any_eq_true.mp h
  have hs : ∃ x, products.reverse.find? (fun q => q.id == pid) = some x := by
    rw [← Option.isSome_iff_exists, List.find?_isSome]
    exact ⟨p, List.mem_reverse.mpr hp, hid⟩
  obtain ⟨x, hx⟩ := hs
  refine ⟨x, hx, List.mem_reverse.mp (List.mem_of_find?_eq_some hx), ?_⟩
  simpa using List.find?_some hx

lemma search_results_of_empty {products : List CatalogItem}
    {items : List VectorRecord} {qf : List ℚ} {k : Nat} {ms : ℚ}
    (he : filtered_items products items = []) :
    search_results products items qf k ms = [] := by
  unfold search_results search_core
  simp [he]

lemma search_results_of_nonempty {products : List CatalogItem}
    {items : List VectorRecord} {qf : List ℚ} {k : Nat} {ms : ℚ}
    (he : filtered_items products items ≠ []) :
    search_results products items qf k ms =
      (topk_pairs (sims_of products items qf) k).filterMap
        (result_entry products
          ((filtered_items products items).map (fun it => it.id)) ms) := by
  unfold search_results search_core sims_of
  have hne : ((filtered_items products items).map
      (fun it => it.embedding)).isEmpty = false := by
    simp [List.isEmpty_iff, he]
  simp [hne]

lemma search_core_error_iff (products : List CatalogItem)
    (items : List VectorRecord) (qf : List ℚ) (k : Nat) (ms : ℚ) :
    search_core products items qf k ms = .error "Empty Embeddings Index" ↔
      filtered_items products items = [] := by
  unfold search_core
  by_cases he : filtered_items products items = []
  · simp [he]
  · have hne : ((filtered_items products items).map
        (fun it => it.embedding)).isEmpty = false := by
      simp [List.isEmpty_iff, he]
    simp [hne, he]

lemma search_results_mem {products : List CatalogItem}
    {items : List VectorRecord} {qf : List ℚ} {k : Nat} {ms : ℚ}
    {r : SearchResult} (h : r ∈ search_results products items qf k ms) :
    ms ≤ r.score ∧ ∃ p, p ∈ products ∧ p.id = r.id := by
  by_cases he : filtered_items products items = []
  · rw [search_results_of_empty he] at h
    cases h
  · rw [search_results_of_nonempty he] at h
    obtain ⟨v, hv, hres⟩ := List.mem_filterMap.mp h
    unfold result_entry at hres
    by_cases hlt : v.2 < ms
    · rw [if_pos hlt] at hres
      cases hres
    · rw [if_neg hlt] at hres
      obtain ⟨pid, hpid, hmap⟩ := Option.bind_eq_some.mp hres
      obtain ⟨p, hp, hpr⟩ := Option.map_eq_some'.mp hmap
      constructor
      · rw [← hpr]
        exact not_lt.mp hlt
      · refine ⟨p, ?_, ?_⟩
        · unfold pmap_get at hp
          exact List.mem_reverse.mp (List.mem_of_find?_eq_some hp)
        · rw [← hpr]

lemma result_entry_score {products : List CatalogItem} {ids : List String}
    {ms : ℚ} {v : Nat × ℚ} {r : SearchResult}
    (h : result_entry products ids ms v = some r) : r.score = v.2 := by
  unfold result_entry at h
  by_cases hlt : v.2 < ms
  · rw [if_pos hlt] at h
    cases h
  · rw [if_neg hlt] at h
    obtain ⟨pid, _, hmap⟩ := Option.bind_eq_some.mp h
    obtain ⟨p, _, hpr⟩ := Option.map_eq_some'.mp hmap
    rw [← hpr]

lemma search_results_eq_filterMap (products : List CatalogItem)
    (items : List VectorRecord) (qf : List ℚ) (k : Nat) (ms : ℚ) :
    search_results products items qf k ms =
      (topk_pairs (sims_of products items qf) k).filterMap
        (result_entry products
          ((filtered_items products items).map (fun it => it.id)) ms) := by
  by_cases he : filtered_items products items = []
  · have hsims : sims_of products items qf = [] := by
      unfold sims_of
      simp [he]
    rw [search_results_of_empty he, hsims]
    simp [topk_pairs]
  · exact search_results_of_nonempty he

lemma result_entry_mono {products : List CatalogItem} {ids : List String}
    {ms1 ms2 : ℚ} {v : Nat × ℚ} {r : SearchResult} (h12 : ms1 ≤ ms2)
    (h : result_entry products ids ms2 v = some r) :
    result_entry products ids ms1 v = some r := by
  unfold result_entry at h ⊢
  by_cases hlt : v.2 < ms2
  · rw [if_pos hlt] at h
    cases h
  · rw [if_neg hlt] at h
    rw [if_neg (fun hlt1 => hlt (lt_of_lt_of_le hlt1 h12))]
    exact h

/-! ### Claims about the search -/

/-- Claim C5: a query joins `index.items` with the catalog on id, dropping
stale records; it fails with the EmptyIndex error exactly when no record
survives the join; and no returned result carries an id absent from the
catalog. -/
theorem C5_catalog_join (products : List CatalogItem) (items : List VectorRecord)
    (qf : List ℚ) (k : Nat) (ms : ℚ) :
    (search_core products items qf k ms = .error "Empty Embeddings Index" ↔
      filtered_items products items = []) ∧
    (∀ r ∈ search_results products items qf k ms,
      ∃ p, p ∈ products ∧ p.id = r.id) :=
  ⟨search_core_error_iff products items qf k ms,
    fun _ hr => (search_results_mem hr).2⟩

/-- Claim C5, witness: an index whose only record references an id missing
from the catalog yields the EmptyIndex error. -/
theorem C5_witness :
    search_core [⟨"p1", "n1", "c1", "u1"⟩] [⟨"p3", [1]⟩] [1] 5 0 =
      .error "Empty Embeddings Index" :=
  (C5_catalog_join [⟨"p1", "n1", "c1", "u1"⟩] [⟨"p3", [1]⟩] [1] 5 0).1.mpr
    (by simp +decide [filtered_items, pmap_mem])

/-- Claim C3: every returned result scores at least `min_score`; the result
list never exceeds `top_k` entries; and raising the threshold never increases
the result length (the threshold is applied after top-k selection). -/
theorem C3_threshold_after_topk (products : List CatalogItem)
    (items : List VectorRecord) (qf : List ℚ) (k : Nat) (ms ms1 ms2 : ℚ) :
    (∀ r ∈ search_results products items qf k ms, ms ≤ r.score) ∧
    (search_results products items qf k ms).length ≤ k ∧
    (ms1 ≤ ms2 →
      (search_results products items qf k ms2).length ≤
        (search_results products items qf k ms1).length) := by
  refine ⟨fun _ hr => (search_results_mem hr).1, ?_, ?_⟩
  · by_cases he : filtered_items products items = []
    · simp [search_results_of_empty he]
    · rw [search_results_of_nonempty he]
      calc ((topk_pairs (sims_of products items qf) k).filterMap
            (result_entry products
              ((filtered_items products items).map (fun it => it.id)) ms)).length
          ≤ (topk_pairs (sims_of products items qf) k).length :=
            List.length_filterMap_le _ _
        _ = min k (sims_of products items qf).length := topk_pairs_length _ _
        _ ≤ k := Nat.min_le_left _ _
  · intro h12
    by_cases he : filtered_items products items = []
    · simp [search_results_of_empty he]
    · rw [search_results_of_nonempty he, search_results_of_nonempty he]
      exact filterMap_length_mono _ _ _ (fun _ _ hv => result_entry_mono h12 hv)

/-- Claim C3, witness: with a fixed query, raising the threshold from 0 to
1/2 does not increase the number of results. -/
theorem C3_witness :
    (search_results [⟨"p1", "n", "c", "u"⟩] [⟨"p1", [2]⟩] [1] 3 (1/2)).length ≤
      (search_results [⟨"p1", "n", "c", "u"⟩] [⟨"p1", [2]⟩] [1] 3 0).length :=
  (C3_threshold_after_topk [⟨"p1", "n", "c", "u"⟩] [⟨"p1", [2]⟩] [1] 3 0 0
    (1/2)).2.2 (by norm_num)

/-- Claim C10: at the default threshold 0.0 every returned score is
non-negative — records with strictly negative cosine similarity are silently
dropped — so a query can return fewer than `min(top_k, matched)` results, as
the concrete single-record instance with similarity -1 shows. -/
theorem C10_default_threshold_drops_negative (products : List CatalogItem)
    (items : List VectorRecord) (qf : List ℚ) (k : Nat) :
    (∀ r ∈ search_results products items qf k 0, 0 ≤ r.score) ∧
    search_results [⟨"pn", "n", "c", "u"⟩] [⟨"pn", [-1]⟩] [1] 2 0 = [] ∧
    min 2 (filtered_items [⟨"pn", "n", "c", "u"⟩] [⟨"pn", [-1]⟩]).length = 1 := by
  refine ⟨fun _ hr => (search_results_mem hr).1, ?_, ?_⟩
  · simp +decide [search_results, search_core, filtered_items, topk_pairs, dot,
      pmap_mem, pmap_get, simLE, result_entry, List.insertionSort,
      List.orderedInsert, List.enum, List.enumFrom]
  · simp +decide [filtered_items, pmap_mem]

/-- Claim C10, witness: a concrete positive-similarity result has a
non-negative score. -/
theorem C10_witness :
    (0 : ℚ) ≤ (⟨"p1", "n", "c", "u", 2⟩ : SearchResult).score :=
  (C10_default_threshold_drops_negative [⟨"p1", "n", "c", "u"⟩]
    [⟨"p1", [2]⟩] [1] 1).1 ⟨"p1", "n", "c", "u", 2⟩
    (by simp +decide [search_results, search_core, filtered_items, topk_pairs,
      dot, pmap_mem, pmap_get, simLE, result_entry, List.insertionSort,
      List.orderedInsert, List.enum, List.enumFrom])

/-- Claim C1 (amended): with `min_score = 0`, unconditionally the selected
pairs are sorted strictly descending by score with exact ties broken by
original position (first seen wins), the returned results are exactly the
catalog join of that selection in selection order, and hence the result list
is sorted descending by score; provided additionally that every retained
similarity is non-negative, the returned scores coincide with the selection
and the result length equals `min(top_k, number of catalog-matched records)`.
(Without the non-negativity proviso the zero threshold can drop records, see
the counterexample.) -/
theorem C1_topk_ranking (products : List CatalogItem) (items : List VectorRecord)
    (qf : List ℚ) (k : Nat) (hk : 1 ≤ k) :
    (topk_pairs (sims_of products items qf) k).Pairwise simLT ∧
    search_results products items qf k 0 =
      (topk_pairs (sims_of products items qf) k).filterMap
        (result_entry products
          ((filtered_items products items).map (fun it => it.id)) 0) ∧
    (search_results products items qf k 0).Pairwise
      (fun a b => b.score ≤ a.score) ∧
    ((∀ it ∈ filtered_items products items, 0 ≤ dot qf it.embedding) →
      (search_results products items qf k 0).map (fun r => r.score) =
        (topk_pairs (sims_of products items qf) k).map (fun v => v.2) ∧
      (search_results products items qf k 0).length =
        min k (filtered_items products items).length) := by
  have hsimlen : (sims_of products items qf).length =
      (filtered_items products items).length := by
    unfold sims_of
    simp
  have heq := search_results_eq_filterMap products items qf k 0
  refine ⟨topk_pairs_sorted _ _, heq, ?_, ?_⟩
  · rw [heq]
    refine List.Pairwise.filterMap _ ?_ (topk_pairs_sorted _ _)
    intro a a' hlt b hb b' hb'
    have hsb : b.score = a.2 := result_entry_score (Option.mem_def.mp hb)
    have hsb' : b'.score = a'.2 := result_entry_score (Option.mem_def.mp hb')
    rw [hsb, hsb']
    rcases hlt with h | ⟨h, _⟩
    · exact le_of_lt h
    · exact le_of_eq h.symm
  intro hnn
  by_cases he : filtered_items products items = []
  · have hsims : sims_of products items qf = [] := by
      unfold sims_of
      simp [he]
    constructor
    · rw [search_results_of_empty he, hsims]
      simp [topk_pairs]
    · rw [search_results_of_empty he, he]
      simp
  · have key : ∀ v ∈ topk_pairs (sims_of products items qf) k,
        ∃ r, result_entry products
            ((filtered_items products items).map (fun it => it.id)) 0 v =
              some r ∧ r.score = v.2 := by
      intro v hv
      have hget := topk_pairs_mem hv
      have hvlt : v.1 < (sims_of products items qf).length :=
        (List.getElem?_eq_some_iff.mp hget).1
      have hnonneg : (0 : ℚ) ≤ v.2 := by
        have hvmem : v.2 ∈ sims_of products items qf := List.getElem?_mem hget
        unfold sims_of at hvmem
        rw [List.map_map] at hvmem
        obtain ⟨it, hit, hdot⟩ := List.mem_map.mp hvmem
        rw [← hdot]
        exact hnn it hit
      have hidlen : v.1 <
          ((filtered_items products items).map (fun it => it.id)).length := by
        rw [List.length_map]
        rw [hsimlen] at hvlt
        exact hvlt
      obtain ⟨pid, hpideq⟩ : ∃ pid,
          ((filtered_items products items).map (fun it => it.id))[v.1]? =
            some pid :=
        ⟨_, List.getElem?_eq_getElem hidlen⟩
      have hpidmem : pid ∈ (filtered_items products items).map (fun it => it.id) :=
        List.getElem?_mem hpideq
      have hpmem : pmap_mem products pid = true := by
        obtain ⟨it, hit, hide⟩ := List.mem_map.mp hpidmem
        unfold filtered_items at hit
        rw [← hide]
        exact (List.mem_filter.mp hit).2
      obtain ⟨p, hp, _, _⟩ := pmap_get_of_mem hpmem
      refine ⟨{ id := p.id, name := p.name, category := p.category, image_url := p.image_url, score := v.2 }, ?_, rfl⟩
      unfold result_entry
      rw [if_neg (not_lt.mpr hnonneg), hpideq]
      simp [hp]
    obtain ⟨hmap, hlen⟩ := filterMap_map_eq
      (topk_pairs (sims_of products items qf) k)
      (result_entry products
        ((filtered_items products items).map (fun it => it.id)) 0)
      (fun v => v.2) (fun r => r.score) key
    constructor
    · rw [search_results_of_nonempty he]
      exact hmap
    · rw [search_results_of_nonempty he, hlen, topk_pairs_length, hsimlen]

/-- Claim C1, counterexample: with one catalog-matched record of similarity
-1 and `min_score = 0`, the query returns 0 results although
`min(top_k, matched) = 1` — the zero threshold already filters. -/
theorem C1_counterexample :
    (search_results [⟨"p2", "n", "c", "u"⟩] [⟨"p2", [-1]⟩] [1] 1 0).length ≠
      min 1 (filtered_items [⟨"p2", "n", "c", "u"⟩] [⟨"p2", [-1]⟩]).length := by
  simp +decide [search_results, search_core, filtered_items, topk_pairs, dot,
    pmap_mem, pmap_get, simLE, result_entry, List.insertionSort,
    List.orderedInsert, List.enum, List.enumFrom]

/-- Claim C1, witness: on a single record of similarity 1 the query returns
exactly `min(top_k, matched) = 1` result. -/
theorem C1_witness :
    (search_results [⟨"p1", "n", "c", "u"⟩] [⟨"p1", [1]⟩] [1] 1 0).length =
      min 1 (filtered_items [⟨"p1", "n", "c", "u"⟩] [⟨"p1", [1]⟩]).length :=
  ((C1_topk_ranking [⟨"p1", "n", "c", "u"⟩] [⟨"p1", [1]⟩] [1] 1
    (by norm_num)).2.2.2 (by simp +decide [filtered_items, pmap_mem, dot])).2

end VPM
